import Mathlib

/-!
Verification of the search/pagination/load pipeline of `src/App.tsx` and
the record model of `src/types.ts` (vnMedicalPaper).

JavaScript strings are modelled as `List Char`.  The string operations the
app uses — `toLowerCase`, `trim`, `includes` — are embedded below with
JavaScript semantics (ASCII case mapping; `trim` strips leading and
trailing whitespace; `includes` is the contiguous-substring test, true for
the empty needle).
-/

namespace VnMedicalPaper

/-- Model of JavaScript `String.prototype.toLowerCase` on one character
(ASCII range; code points outside A–Z are left unchanged). -/
def jsToLowerChar (c : Char) : Char :=
  if 65 ≤ c.toNat && c.toNat ≤ 90 then Char.ofNat (c.toNat + 32) else c

/-- `s.toLowerCase()` on a whole string. -/
def jsToLower (s : List Char) : List Char :=
  s.map jsToLowerChar

/-- Whitespace as recognised by JavaScript `String.prototype.trim`
(restricted to the common ASCII whitespace characters, compared by code
point). -/
def isWhitespace (c : Char) : Bool :=
  c.toNat == 32 || c.toNat == 9 || c.toNat == 10 || c.toNat == 13

/-- `s.trim()`: drop leading and trailing whitespace. -/
def jsTrim (s : List Char) : List Char :=
  ((s.dropWhile isWhitespace).reverse.dropWhile isWhitespace).reverse

/-- `hay` starts with `needle` (helper for the substring test). -/
def startsWith : List Char → List Char → Bool
  | _, [] => true
  | [], _ :: _ => false
  | a :: as, b :: bs => a == b && startsWith as bs

/-- Model of JavaScript `hay.includes(needle)`: `needle` occurs as a
contiguous substring of `hay`. -/
def jsIncludes : List Char → List Char → Bool
  | [], needle => needle.isEmpty
  | c :: cs, needle => startsWith (c :: cs) needle || jsIncludes cs needle

/-- The record model of `src/types.ts`: one `Paper`, nine string fields. -/
structure Paper where
  Journal : List Char
  Organization : List Char
  PublishedDate : List Char
  Authors : List Char
  Title : List Char
  TitleURL : List Char
  PdfURL : List Char
  VolURL : List Char
  VolTitle : List Char
deriving DecidableEq, Repr

/-- `ITEMS_PER_PAGE` of `App.tsx` line 17. -/
def ITEMS_PER_PAGE : Nat := 20

/-- The record predicate inside `papers.filter` (`App.tsx` lines 55–59),
applied to the already–normalised query. -/
def paperMatches (query : List Char) (paper : Paper) : Bool :=
  jsIncludes (jsToLower paper.Title) query ||
  jsIncludes (jsToLower paper.Authors) query ||
  jsIncludes (jsToLower paper.Journal) query

/-- `filteredPapers` (`App.tsx` lines 50–60): normalise the query with
`searchQuery.toLowerCase().trim()`; an empty normalised query returns
`papers` unchanged, otherwise keep the papers satisfying `paperMatches`. -/
def filteredPapers (papers : List Paper) (searchQuery : List Char) : List Paper :=
  let query := jsTrim (jsToLower searchQuery)
  if query.isEmpty then papers
  else papers.filter (paperMatches query)

/-- JavaScript `Array.prototype.slice(start, end)` for the in-range
arguments the app produces (`0 ≤ start ≤ end`). -/
def jsSlice (l : List Paper) (s e : Nat) : List Paper :=
  (l.drop s).take (e - s)

/-- `totalPages` (`App.tsx` line 67) with the page size as a parameter:
`Math.ceil(records.length / pageSize)` over naturals. -/
def totalPagesGen (records : List Paper) (pageSize : Nat) : Nat :=
  (records.length + pageSize - 1) / pageSize

/-- `totalPages` at the app's fixed page size `ITEMS_PER_PAGE = 20`. -/
def totalPages (records : List Paper) : Nat :=
  totalPagesGen records ITEMS_PER_PAGE

/-- `paginatedPapers` (`App.tsx` lines 69–73) with the page size as a
parameter: `startIndex = (page-1)*pageSize`, `endIndex = startIndex +
pageSize`, result `records.slice(startIndex, endIndex)`. -/
def paginate (records : List Paper) (pageSize page : Nat) : List Paper :=
  let startIndex := (page - 1) * pageSize
  let endIndex := startIndex + pageSize
  jsSlice records startIndex endIndex

/-- `paginatedPapers` at the app's fixed page size `ITEMS_PER_PAGE = 20`. -/
def paginatedPapers (records : List Paper) (currentPage : Nat) : List Paper :=
  paginate records ITEMS_PER_PAGE currentPage

/-! ### Application state and its step relation

The `App` component holds five pieces of `useState` state (`App.tsx`
lines 20–24).  User events drive the two pieces relevant to the
search/pagination interplay: typing in the search input calls
`setSearchQuery` (line 96), and the pagination controls call
`setCurrentPage` (line 125).  The effect at lines 63–65 runs exactly when
`searchQuery` changed and calls `setCurrentPage(1)`; a step of the model
is one user event together with the effects React runs for it before the
next displayed pagination is computed. -/

/-- The user-driven part of the `App` component state. -/
structure AppState where
  searchQuery : List Char
  currentPage : Nat
deriving DecidableEq, Repr

/-- User events that update the state. -/
inductive AppEvent where
  | setQuery (s : List Char)
  | setPage (n : Nat)
deriving DecidableEq, Repr

/-- One transition: `setQuery` updates the query and — when the query
actually changed — the `useEffect` on `[searchQuery]` (lines 63–65)
resets `currentPage` to 1; `setPage` updates only the page. -/
def step (st : AppState) (ev : AppEvent) : AppState :=
  match ev with
  | .setQuery s =>
      if s = st.searchQuery then { st with searchQuery := s }
      else { searchQuery := s, currentPage := 1 }
  | .setPage n => { st with currentPage := n }

/-! ### Data loading (`loadData`, `App.tsx` lines 26–48)

`fetchAndParseSheetData` lives outside `src/`; its observable outcome is
either a parsed record list or a thrown `Error` (a fetch or parse
failure), so `loadData` is modelled as a function of that outcome.  The
model also returns whether the fetch was invoked at all. -/

/-- The placeholder marker tested at `App.tsx` line 31. -/
def placeholderMarker : List Char := "YOUR_URL_HERE".toList

/-- The configuration error message thrown at `App.tsx` line 32. -/
def configErrorMsg : List Char :=
  "Please replace the placeholder Google Sheet URL in App.tsx.".toList

/-- The load-related component state: `papers` (initially `[]`), the
error message, and the loading flag. -/
structure LoadState where
  papers : List Paper
  error : Option (List Char)
  isLoading : Bool
deriving DecidableEq, Repr

/-- The initial state of `App` (`App.tsx` lines 20–23). -/
def initialLoadState : LoadState :=
  { papers := [], error := none, isLoading := true }

/-- The outcome `await fetchAndParseSheetData(url)` would have: parsed
records, or a thrown error message (fetch or parse failure). -/
inductive FetchOutcome where
  | ok (data : List Paper)
  | thrown (msg : List Char)
deriving DecidableEq, Repr

/-- `loadData` (`App.tsx` lines 27–45): set loading, clear the error;
fail fast with the configuration error when the URL is empty or still
contains the placeholder marker (line 31) — the fetch is then never
invoked; otherwise run the fetch and either store the data or record the
thrown message; `finally` clears the loading flag.  The second component
reports whether the fetch was invoked. -/
def loadData (url : List Char) (outcome : FetchOutcome) (st : LoadState) :
    LoadState × Bool :=
  let st := { st with isLoading := true, error := none }
  if url.isEmpty || jsIncludes url placeholderMarker then
    ({ st with error := some configErrorMsg, isLoading := false }, false)
  else
    match outcome with
    | .ok data => ({ st with papers := data, isLoading := false }, true)
    | .thrown msg => ({ st with error := some msg, isLoading := false }, true)

/-! ### Spec-side definitions

The specification phrases the query normalisation as "trims surrounding
whitespace, lowercases" (trim first, then lowercase); the code lowercases
first and then trims.  `specNormalize` and `specMatches` follow the
spec's wording, to be compared against `filteredPapers`. -/

/-- The spec's normalised query: trim, then lowercase. -/
def specNormalize (q : List Char) : List Char :=
  jsToLower (jsTrim q)

/-- The spec's match test: the lowercased Title, Authors or Journal
contains the normalised query as a substring (OR across the three). -/
def specMatches (q : List Char) (p : Paper) : Bool :=
  jsIncludes (jsToLower p.Title) (specNormalize q) ||
  jsIncludes (jsToLower p.Authors) (specNormalize q) ||
  jsIncludes (jsToLower p.Journal) (specNormalize q)

/-- A sample record used to instantiate proved theorems. -/
def samplePaper : Paper :=
  { Journal := "Lancet".toList
    Organization := []
    PublishedDate := []
    Authors := "Smith".toList
    Title := "Flu Study".toList
    TitleURL := []
    PdfURL := []
    VolURL := []
    VolTitle := [] }

/-- A sample record whose three searchable fields contain no whitespace. -/
def plainPaper : Paper :=
  { Journal := "c".toList
    Organization := []
    PublishedDate := []
    Authors := "b".toList
    Title := "a".toList
    TitleURL := []
    PdfURL := []
    VolURL := []
    VolTitle := [] }

/-! ### Character- and string-level lemmas -/

/-- `Char.ofNat` at a scalar value below the surrogate range decodes back
to the same code point. -/
theorem toNat_ofNat_of_lt {n : Nat} (h : n < 55296) : (Char.ofNat n).toNat = n := by
  have hv : n.isValidChar := Or.inl h
  simp [Char.ofNat, hv, Char.ofNatAux, Char.toNat, UInt32.toNat]

/-- ASCII lowercasing maps whitespace to whitespace and non-whitespace to
non-whitespace. -/
theorem isWhitespace_jsToLowerChar (c : Char) :
    isWhitespace (jsToLowerChar c) = isWhitespace c := by
  unfold jsToLowerChar
  split
  · rename_i h
    simp only [Bool.and_eq_true, decide_eq_true_eq] at h
    have h1 : (Char.ofNat (c.toNat + 32)).toNat = c.toNat + 32 :=
      toNat_ofNat_of_lt (by omega)
    have hL : isWhitespace (Char.ofNat (c.toNat + 32)) = false := by
      simp only [isWhitespace, h1, Bool.or_eq_false_iff, beq_eq_false_iff_ne, ne_eq]
      omega
    have hR : isWhitespace c = false := by
      simp only [isWhitespace, Bool.or_eq_false_iff, beq_eq_false_iff_ne, ne_eq]
      omega
    rw [hL, hR]
  · rfl

/-- Lowercase-then-trim (the code's order) equals trim-then-lowercase
(the spec's order). -/
theorem jsTrim_jsToLower (s : List Char) :
    jsTrim (jsToLower s) = jsToLower (jsTrim s) := by
  have hw : isWhitespace ∘ jsToLowerChar = isWhitespace :=
    funext isWhitespace_jsToLowerChar
  simp only [jsTrim, jsToLower, List.dropWhile_map, hw, ← List.map_reverse]

/-- `hay.includes("")` is true for every `hay`. -/
theorem jsIncludes_nil (hay : List Char) : jsIncludes hay [] = true := by
  induction hay with
  | nil => rfl
  | cons c cs ih => simp [jsIncludes, startsWith, ih]

/-! ### Claim theorems: the query engine -/

/-- C1: for every record list and every query that is non-empty after
trimming and lowercasing, `filteredPapers` equals the filter by the
spec's predicate (lowercased Title, Authors or Journal contains the
normalised query, OR across the three fields), the result is a
subsequence of the input (relative order preserved), and a record is kept
iff it is an input record satisfying the predicate. -/
theorem filteredPapers_matches_spec (papers : List Paper) (q : List Char)
    (h : specNormalize q ≠ []) :
    filteredPapers papers q = papers.filter (specMatches q) ∧
    (filteredPapers papers q).Sublist papers ∧
    (∀ p, p ∈ filteredPapers papers q ↔ p ∈ papers ∧ specMatches q p = true) := by
  have hq : jsTrim (jsToLower q) = specNormalize q := jsTrim_jsToLower q
  have hne : (specNormalize q).isEmpty = false := by
    cases hsn : specNormalize q with
    | nil => exact absurd hsn h
    | cons a l => rfl
  have heq : filteredPapers papers q = papers.filter (specMatches q) := by
    unfold filteredPapers
    simp only [hq, hne, Bool.false_eq_true, if_false]
    rfl
  refine ⟨heq, ?_, ?_⟩
  · rw [heq]; exact List.filter_sublist papers
  · intro p; rw [heq]; exact List.mem_filter

/-- Witness for C1 at the query `"Flu"` and a one-record list. -/
theorem filteredPapers_matches_spec_witness :
    specNormalize "Flu".toList ≠ [] ∧
    filteredPapers [samplePaper] "Flu".toList =
      [samplePaper].filter (specMatches "Flu".toList) ∧
    (filteredPapers [samplePaper] "Flu".toList).Sublist [samplePaper] :=
  ⟨by decide,
   (filteredPapers_matches_spec [samplePaper] "Flu".toList (by decide)).1,
   (filteredPapers_matches_spec [samplePaper] "Flu".toList (by decide)).2.1⟩

/-- C4: filtering with the empty query and with a whitespace-only query
is the identity: the full record list is returned unchanged. -/
theorem filteredPapers_blank_query_identity (papers : List Paper) :
    filteredPapers papers [] = papers ∧
    filteredPapers papers "   ".toList = papers :=
  ⟨rfl, rfl⟩

/-- C6 counterexample: the query `" "` is non-empty, yet a record kept by
the filter (here every record is kept, because the query trims to empty)
need not contain `" "` lowercased in any of its three searchable
fields. -/
theorem untrimmed_query_counterexample :
    (" ".toList ≠ ([] : List Char)) ∧
    plainPaper ∈ filteredPapers [plainPaper] " ".toList ∧
    (jsIncludes (jsToLower plainPaper.Title) (jsToLower " ".toList) ||
     jsIncludes (jsToLower plainPaper.Authors) (jsToLower " ".toList) ||
     jsIncludes (jsToLower plainPaper.Journal) (jsToLower " ".toList)) = false := by
  decide

/-- C6 amended: for every non-empty query `q`, every record kept by the
filter has a searchable field whose lowercase form contains the trimmed
lowercased query as a substring. -/
theorem filteredPapers_kept_matches_trimmed (papers : List Paper) (q : List Char)
    (_hq : q ≠ []) (p : Paper) (hp : p ∈ filteredPapers papers q) :
    (jsIncludes (jsToLower p.Title) (jsTrim (jsToLower q)) ||
     jsIncludes (jsToLower p.Authors) (jsTrim (jsToLower q)) ||
     jsIncludes (jsToLower p.Journal) (jsTrim (jsToLower q))) = true := by
  simp only [filteredPapers] at hp
  split at hp
  · rename_i he
    have hnil : jsTrim (jsToLower q) = [] := by
      cases hcase : jsTrim (jsToLower q) with
      | nil => rfl
      | cons a l => rw [hcase] at he; exact absurd he (by simp)
    rw [hnil]
    simp [jsIncludes_nil]
  · exact (List.mem_filter.mp hp).2

/-- Witness for the amended C6 at the query `"flu"`. -/
theorem filteredPapers_kept_matches_trimmed_witness :
    ("flu".toList ≠ ([] : List Char)) ∧
    samplePaper ∈ filteredPapers [samplePaper] "flu".toList ∧
    (jsIncludes (jsToLower samplePaper.Title) (jsTrim (jsToLower "flu".toList)) ||
     jsIncludes (jsToLower samplePaper.Authors) (jsTrim (jsToLower "flu".toList)) ||
     jsIncludes (jsToLower samplePaper.Journal) (jsTrim (jsToLower "flu".toList))) = true :=
  ⟨by decide, by decide,
   filteredPapers_kept_matches_trimmed [samplePaper] "flu".toList (by decide)
     samplePaper (by decide)⟩

/-! ### Claim theorems: the pagination engine -/

/-- `paginate` at page `i+1` is the `i`-th size-`ps` chunk. -/
theorem paginate_succ (l : List Paper) (ps i : Nat) :
    paginate l ps (i + 1) = (l.drop (i * ps)).take ps := by
  simp only [paginate, jsSlice, Nat.add_sub_cancel]
  congr 1
  omega

/-- Concatenating the first `n` size-`ps` chunks of `l` yields
`l.take (n * ps)`. -/
theorem join_chunks (ps n : Nat) (l : List Paper) :
    ((List.range n).map (fun i => (l.drop (i * ps)).take ps)).flatten =
      l.take (n * ps) := by
  induction n with
  | zero => simp
  | succ m ih =>
      rw [List.range_succ, List.map_append, List.flatten_append]
      simp only [List.map_cons, List.map_nil, List.flatten_cons, List.flatten_nil,
        List.append_nil]
      rw [ih, Nat.succ_mul, List.take_add]

/-- The record count never exceeds `totalPages * pageSize`. -/
theorem length_le_totalPagesGen_mul (records : List Paper) (ps : Nat)
    (h : 0 < ps) : records.length ≤ totalPagesGen records ps * ps := by
  unfold totalPagesGen
  have hdm := Nat.div_add_mod (records.length + ps - 1) ps
  have hmod : (records.length + ps - 1) % ps < ps := Nat.mod_lt _ h
  rw [Nat.mul_comm]
  generalize hx : ps * ((records.length + ps - 1) / ps) = x at hdm ⊢
  omega

/-- C2: at the fixed page size 20, concatenating the page slices for
pages `1 .. totalPages` reconstructs the record list exactly — every
element once, no gaps, no overlaps. -/
theorem paginatedPapers_partition (records : List Paper) :
    ((List.range (totalPages records)).map
      (fun i => paginatedPapers records (i + 1))).flatten = records := by
  have h1 : ∀ i, paginatedPapers records (i + 1) =
      (records.drop (i * ITEMS_PER_PAGE)).take ITEMS_PER_PAGE :=
    fun i => paginate_succ records ITEMS_PER_PAGE i
  simp only [h1]
  rw [join_chunks]
  exact List.take_of_length_le
    (length_le_totalPagesGen_mul records ITEMS_PER_PAGE (by decide))

/-- C3: for every positive page size, `totalPages` is the ceiling of the
record count divided by the page size, and is 0 on the empty list. -/
theorem totalPagesGen_eq_ceil (records : List Paper) (ps : Nat) (h : 0 < ps) :
    totalPagesGen records ps = ⌈(records.length : ℚ) / (ps : ℚ)⌉₊ ∧
    (records = [] → totalPagesGen records ps = 0) := by
  have hzero : ∀ a : Nat, a = 0 → (a + ps - 1) / ps = 0 := by
    intro a ha
    rw [ha]
    exact Nat.div_eq_of_lt (by omega)
  constructor
  · rcases Nat.eq_zero_or_pos records.length with ha | ha
    · unfold totalPagesGen
      rw [hzero records.length ha, ha]
      simp
    · have hdm := Nat.div_add_mod (records.length + ps - 1) ps
      have hmod : (records.length + ps - 1) % ps < ps := Nat.mod_lt _ h
      have hub : records.length ≤ totalPagesGen records ps * ps :=
        length_le_totalPagesGen_mul records ps h
      have hlb : (totalPagesGen records ps - 1) * ps < records.length := by
        unfold totalPagesGen
        rw [Nat.sub_mul, Nat.one_mul, Nat.mul_comm]
        generalize hx : ps * ((records.length + ps - 1) / ps) = x at hdm ⊢
        omega
      have ht0 : totalPagesGen records ps ≠ 0 := by
        intro h0
        rw [h0, Nat.zero_mul] at hub
        omega
      symm
      rw [Nat.ceil_eq_iff ht0]
      have hps : (0 : ℚ) < (ps : ℚ) := by exact_mod_cast h
      constructor
      · rw [lt_div_iff₀ hps]
        exact_mod_cast hlb
      · rw [div_le_iff₀ hps]
        exact_mod_cast hub
  · intro hrec
    subst hrec
    exact hzero _ rfl

/-- Witness for C3 at page size 20 and a one-record list. -/
theorem totalPagesGen_eq_ceil_witness :
    0 < 20 ∧
    (totalPagesGen [samplePaper] 20 =
        ⌈((List.length [samplePaper] : ℚ)) / ((20 : Nat) : ℚ)⌉₊ ∧
      ([samplePaper] = ([] : List Paper) → totalPagesGen [samplePaper] 20 = 0)) :=
  ⟨by decide, totalPagesGen_eq_ceil [samplePaper] 20 (by decide)⟩

/-- C5: for every positive page size and every page number beyond
`totalPages`, `paginate` returns the empty slice (the function is total:
it cannot fail). -/
theorem paginate_beyond_total_empty (records : List Paper) (ps page : Nat)
    (h : 0 < ps) (hpage : totalPagesGen records ps < page) :
    paginate records ps page = [] := by
  have hlen : records.length ≤ (page - 1) * ps := by
    have hub := length_le_totalPagesGen_mul records ps h
    have hyp : totalPagesGen records ps ≤ page - 1 := by omega
    exact le_trans hub (Nat.mul_le_mul_right ps hyp)
  simp only [paginate, jsSlice]
  rw [List.drop_eq_nil_of_le hlen]
  exact List.take_nil

/-- Witness for C5: one record, page size 20, page 2. -/
theorem paginate_beyond_total_empty_witness :
    0 < 20 ∧ totalPagesGen [samplePaper] 20 < 2 ∧
      paginate [samplePaper] 20 2 = [] :=
  ⟨by decide, by decide,
   paginate_beyond_total_empty [samplePaper] 20 2 (by decide) (by decide)⟩

/-- C10: a displayed page never holds more than `ITEMS_PER_PAGE = 20`
records. -/
theorem paginatedPapers_length_bound (records : List Paper) (page : Nat) :
    (paginatedPapers records page).length ≤ ITEMS_PER_PAGE ∧
    ITEMS_PER_PAGE = 20 := by
  refine ⟨?_, rfl⟩
  simp only [paginatedPapers, paginate, jsSlice, ITEMS_PER_PAGE]
  exact le_trans (List.length_take_le _ _) (by omega)

/-! ### Claim theorems: state transitions and loading -/

/-- C7: every transition of the application state that changes the search
query resets the current page to 1 (the `useEffect` on `[searchQuery]`
fires and calls `setCurrentPage(1)`). -/
theorem step_query_change_resets_page (st : AppState) (ev : AppEvent)
    (h : (step st ev).searchQuery ≠ st.searchQuery) :
    (step st ev).currentPage = 1 := by
  cases ev with
  | setQuery s =>
      by_cases hs : s = st.searchQuery
      · exact absurd (by simp [step, hs]) h
      · simp [step, hs]
  | setPage n => exact absurd rfl h

/-- Witness for C7: typing a new query from a state sitting on page 5. -/
theorem step_query_change_resets_page_witness :
    (step ⟨[], 5⟩ (AppEvent.setQuery "a".toList)).searchQuery ≠
      (AppState.mk [] 5).searchQuery ∧
    (step ⟨[], 5⟩ (AppEvent.setQuery "a".toList)).currentPage = 1 :=
  ⟨by decide,
   step_query_change_resets_page ⟨[], 5⟩ (AppEvent.setQuery "a".toList) (by decide)⟩

/-- C8: when the configured URL is empty or still contains the
placeholder marker, `loadData` reports the configuration error and the
fetch is never invoked (the invocation flag is `false`), leaving the
stored records untouched. -/
theorem loadData_placeholder_no_fetch (url : List Char) (outcome : FetchOutcome)
    (st : LoadState)
    (h : url = [] ∨ jsIncludes url placeholderMarker = true) :
    (loadData url outcome st).2 = false ∧
    (loadData url outcome st).1.error = some configErrorMsg ∧
    (loadData url outcome st).1.papers = st.papers := by
  have hc : (url.isEmpty || jsIncludes url placeholderMarker) = true := by
    rcases h with h | h
    · rw [h]; rfl
    · rw [h]; simp
  simp [loadData, hc]

/-- Witness for C8: the unreplaced placeholder URL. -/
theorem loadData_placeholder_no_fetch_witness :
    ("x YOUR_URL_HERE x".toList = ([] : List Char) ∨
      jsIncludes "x YOUR_URL_HERE x".toList placeholderMarker = true) ∧
    (loadData "x YOUR_URL_HERE x".toList (FetchOutcome.ok [samplePaper])
        initialLoadState).2 = false ∧
    (loadData "x YOUR_URL_HERE x".toList (FetchOutcome.ok [samplePaper])
        initialLoadState).1.error = some configErrorMsg :=
  ⟨Or.inr (by decide),
   (loadData_placeholder_no_fetch "x YOUR_URL_HERE x".toList
      (FetchOutcome.ok [samplePaper]) initialLoadState (Or.inr (by decide))).1,
   (loadData_placeholder_no_fetch "x YOUR_URL_HERE x".toList
      (FetchOutcome.ok [samplePaper]) initialLoadState (Or.inr (by decide))).2.1⟩

/-- C9: when a load started from the initial state fails — with the
configuration error (bad URL) or with a thrown fetch/parse error — the
record set stays empty and an error message is recorded; no partial data
is stored. -/
theorem loadData_failure_leaves_empty (url : List Char) (outcome : FetchOutcome)
    (h : (url.isEmpty || jsIncludes url placeholderMarker) = true ∨
         ∃ m, outcome = FetchOutcome.thrown m) :
    (loadData url outcome initialLoadState).1.papers = [] ∧
    ∃ m, (loadData url outcome initialLoadState).1.error = some m := by
  rcases h with hc | ⟨m, hm⟩
  · simp [loadData, hc, initialLoadState]
  · subst hm
    by_cases hc : (url.isEmpty || jsIncludes url placeholderMarker) = true
    · simp [loadData, hc, initialLoadState]
    · simp [loadData, hc, initialLoadState]

/-- Witness for C9: a well-formed URL whose fetch throws. -/
theorem loadData_failure_leaves_empty_witness :
    (("https://e.com/a.csv".toList.isEmpty ||
        jsIncludes "https://e.com/a.csv".toList placeholderMarker) = true ∨
      ∃ m, FetchOutcome.thrown "network down".toList = FetchOutcome.thrown m) ∧
    (loadData "https://e.com/a.csv".toList
        (FetchOutcome.thrown "network down".toList) initialLoadState).1.papers = [] ∧
    ∃ m, (loadData "https://e.com/a.csv".toList
        (FetchOutcome.thrown "network down".toList) initialLoadState).1.error = some m :=
  ⟨Or.inr ⟨"network down".toList, rfl⟩,
   (loadData_failure_leaves_empty "https://e.com/a.csv".toList
      (FetchOutcome.thrown "network down".toList)
      (Or.inr ⟨"network down".toList, rfl⟩)).1,
   (loadData_failure_leaves_empty "https://e.com/a.csv".toList
      (FetchOutcome.thrown "network down".toList)
      (Or.inr ⟨"network down".toList, rfl⟩)).2⟩

end VnMedicalPaper
